import Mathlib

/-!
Verification of the siif reconciliation/canonicalization core.

The definitions below are a shallow embedding of the Python source files
`src/new_app.py` (value coercion `_to_num`, key canonicalization `_canon_key`,
`SYNONYMS`, `CANON`, `canonicalize_report`, `merge_reports_with_provenance`),
`src/model.py` (`add_derived`, `safe_div`) and `src/financial_sources.py`
(`_safe_num`).

Modelling conventions:
* Python scalar values are the inductive `Scalar`; Python floats are `PyFloat`
  (an exact rational, NaN, or a signed infinity).  Rationals idealize IEEE
  doubles: every numeric constant appearing in the claims is exactly
  representable, and double rounding/overflow-to-infinity of enormous decimal
  literals is not modelled (no claim depends on it).
* Python dicts are association lists `List (String × _)`; keys of real Python
  dicts are unique, `find?` models `dict.get`, and the fold in `norm_get`
  models the last-write-wins dict build inside `canonicalize_report`.
* `float(s)` on strings is `parsePyFloat`: optional surrounding whitespace and
  sign, `inf`/`infinity`/`nan` (case-insensitive), else a decimal mantissa with
  optional exponent.  Digit-group underscores are not modelled.
* Python booleans are instances of `int`, so `_to_num`/`_safe_num` send them
  through the numeric branch (`float(True) = 1.0`).
-/

namespace Siif

/-- A Python float: an exact rational, NaN, or a signed infinity. -/
inductive PyFloat where
  | finite (q : ℚ)
  | nan
  | inf
  | ninf
deriving DecidableEq

/-- A Python scalar value as it occurs in raw report sections. -/
inductive Scalar where
  | null
  | bool (b : Bool)
  | int (n : ℤ)
  | float (f : PyFloat)
  | str (s : String)
deriving DecidableEq

/-- Python truthiness of a scalar (`None`, `False`, zero and `""` are falsy;
NaN and the infinities are truthy). -/
def scalar_truthy (v : Scalar) : Bool :=
  match v with
  | Scalar.null => false
  | Scalar.bool b => b
  | Scalar.int n => decide (n ≠ 0)
  | Scalar.float f =>
    match f with
    | PyFloat.finite q => decide (q ≠ 0)
    | _ => true
  | Scalar.str s => decide (s ≠ "")

/-- ASCII lower-casing of one character, modelling `str.lower` on the
characters that occur in report keys and numeric tokens. -/
def lowerChar (c : Char) : Char :=
  if 65 ≤ c.toNat ∧ c.toNat ≤ 90 then Char.ofNat (c.toNat + 32) else c

/-- Whitespace characters stripped by `str.strip` / `float`. -/
def isSpaceChar (c : Char) : Bool :=
  c = ' ' ∨ c = '\t' ∨ c = '\n' ∨ c = '\r' ∨ c = '\x0b' ∨ c = '\x0c'

/-- `str.strip`: drop leading and trailing whitespace. -/
def pyStrip (s : List Char) : List Char :=
  ((s.dropWhile isSpaceChar).reverse.dropWhile isSpaceChar).reverse

/-- `str.lower` over a character list. -/
def pyLower (s : List Char) : List Char :=
  s.map lowerChar

/-- Is `c` a decimal digit? -/
def isDig (c : Char) : Bool :=
  48 ≤ c.toNat ∧ c.toNat ≤ 57

/-- Numeric value of a digit string (most significant first). -/
def digitsVal (ds : List Char) : ℕ :=
  ds.foldl (fun a c => a * 10 + (c.toNat - 48)) 0

/-- A nonempty all-digit string, or failure. -/
def parseDigits (ds : List Char) : Option ℕ :=
  if ds ≠ [] ∧ ds.all isDig then some (digitsVal ds) else Option.none

/-- Split at the first occurrence of `c`, if any. -/
def splitOnce (c : Char) : List Char → Option (List Char × List Char)
  | [] => Option.none
  | x :: xs =>
    if x = c then some ([], xs)
    else
      match splitOnce c xs with
      | Option.none => Option.none
      | some (l, r) => some (x :: l, r)

/-- Mantissa of a float literal: `digits`, `digits.digits`, `digits.` or
`.digits` (at least one digit overall). -/
def parseMantissa (m : List Char) : Option ℚ :=
  match splitOnce '.' m with
  | Option.none => (parseDigits m).map (fun n => (n : ℚ))
  | some (i, f) =>
    if i.all isDig ∧ f.all isDig ∧ i ++ f ≠ [] then
      some ((digitsVal (i ++ f) : ℚ) / 10 ^ f.length)
    else Option.none

/-- Exponent part of a float literal: optional sign, then digits. -/
def parseExp (e : List Char) : Option ℤ :=
  match e with
  | '-' :: rest => (parseDigits rest).map (fun n => -(n : ℤ))
  | '+' :: rest => (parseDigits rest).map (fun n => (n : ℤ))
  | _ => (parseDigits e).map (fun n => (n : ℤ))

/-- `float(s)` on a string: surrounding whitespace and an optional sign, then
`inf`/`infinity`/`nan` (case-insensitive) or a decimal literal with optional
exponent.  Returns `none` where Python raises `ValueError`. -/
def parsePyFloat (s : String) : Option PyFloat :=
  let t := pyStrip s.data
  let signed : Bool × List Char :=
    match t with
    | '-' :: rest => (true, rest)
    | '+' :: rest => (false, rest)
    | _ => (false, t)
  let neg := signed.1
  let low := pyLower signed.2
  if low = "inf".data ∨ low = "infinity".data then
    some (if neg then PyFloat.ninf else PyFloat.inf)
  else if low = "nan".data then some PyFloat.nan
  else
    match splitOnce 'e' low with
    | Option.none =>
      (parseMantissa low).map (fun q => PyFloat.finite (if neg then -q else q))
    | some (m, ex) =>
      match parseMantissa m, parseExp ex with
      | some q, some z =>
        some (PyFloat.finite (if neg then -(q * 10 ^ z) else q * 10 ^ z))
      | _, _ => Option.none

/-- Division of a Python float by `100.0` (used by the percent branch of
`_to_num`; infinities and NaN pass through unchanged, as in IEEE). -/
def pfDiv100 (f : PyFloat) : PyFloat :=
  match f with
  | PyFloat.finite q => PyFloat.finite (q / 100)
  | x => x

/-- String of a character list. -/
def strOf (cs : List Char) : String :=
  String.mk cs

/-- `_to_num` from `src/new_app.py`: `None` → `None`; numbers pass through
(floats rejected when NaN/infinite; bools are ints, so `True` → `1.0`);
strings are stripped, sentinel tokens map to `None`, a trailing `%` divides
the parsed prefix by 100 (with no NaN/infinity check on this branch, exactly
as in the source), otherwise commas are removed and the parse result is
returned unless it is NaN/infinite; every parse failure yields `None`. -/
def to_num (x : Scalar) : Option PyFloat :=
  match x with
  | Scalar.null => Option.none
  | Scalar.bool b => some (PyFloat.finite (if b then 1 else 0))
  | Scalar.int n => some (PyFloat.finite (n : ℚ))
  | Scalar.float f =>
    match f with
    | PyFloat.finite q => some (PyFloat.finite q)
    | _ => Option.none
  | Scalar.str s0 =>
    let sc := pyStrip s0.data
    if sc = [] ∨ pyLower sc = "nan".data ∨ pyLower sc = "none".data ∨
        pyLower sc = "null".data ∨ pyLower sc = "—".data ∨ pyLower sc = "-".data then
      Option.none
    else if sc.getLast? = some '%' then
      match parsePyFloat (strOf (pyStrip (sc.dropLast))) with
      | Option.none => Option.none
      | some f => some (pfDiv100 f)
    else
      match parsePyFloat (strOf (sc.filter (fun c => c ≠ ','))) with
      | Option.none => Option.none
      | some (PyFloat.finite q) => some (PyFloat.finite q)
      | some _ => Option.none

/-- `_safe_num` from `src/financial_sources.py`: `None` → `None`; any int or
float (bools included) passes through `float(x)` unchanged — NaN is *not*
filtered here; strings are parsed after removing commas, failures → `None`. -/
def safe_num (x : Scalar) : Option PyFloat :=
  match x with
  | Scalar.null => Option.none
  | Scalar.bool b => some (PyFloat.finite (if b then 1 else 0))
  | Scalar.int n => some (PyFloat.finite (n : ℚ))
  | Scalar.float f => some f
  | Scalar.str s => parsePyFloat (strOf (s.data.filter (fun c => c ≠ ',')))

/-- The `SYNONYMS` table of `src/new_app.py`, verbatim (including the
`total_liab → total_liilities` entry). -/
def SYNONYMS : List (String × String) :=
  [("total_revenue", "revenue"), ("sales", "revenue"), ("turnover", "revenue"),
   ("grossprofit", "gross_profit"), ("operatingincome", "operating_income"),
   ("ebit", "operating_income"), ("netincome", "net_income"),
   ("net_profit", "net_income"), ("eps", "eps_basic"), ("basic_eps", "eps_basic"),
   ("diluted_eps", "eps_diluted"), ("total_assets", "total_assets"),
   ("assets_total", "total_assets"), ("total_liab", "total_liilities"),
   ("total_liabilities", "total_liabilities"),
   ("total_liabilities_and_equity", "total_assets"), ("equity", "total_equity"),
   ("shareholders_equity", "total_equity"), ("shares", "shares_outstanding"),
   ("shares_out", "shares_outstanding"), ("operating_cash_flow", "operating_cf"),
   ("cash_from_operations", "operating_cf"), ("investing_cash_flow", "investing_cf"),
   ("financing_cash_flow", "financing_cf"), ("free_cash_flow", "free_cf"),
   ("fcf", "free_cf"), ("net_margin", "profit_margin"), ("roe", "return_on_equity"),
   ("d_to_e", "debt_to_equity"), ("pe", "pe_ratio_basic")]

/-- `_canon_key` from `src/new_app.py`: strip, lower-case, replace spaces with
underscores; an input that is literally the misspelling `total_liilities` is
repaired *before* the synonym lookup; finally the synonym table is applied,
defaulting to the normalized key itself. -/
def canon_key (k : String) : String :=
  let k0 := strOf ((pyLower (pyStrip k.data)).map (fun c => if c = ' ' then '_' else c))
  let k1 := if k0 = "total_liilities" then "total_liabilities" else k0
  match SYNONYMS.find? (fun kv => kv.1 = k1) with
  | some kv => kv.2
  | Option.none => k1

/-- Income-statement keys of `CANON` in `src/new_app.py`. -/
def incomeKeys : List String :=
  ["revenue", "gross_profit", "operating_income", "net_income", "eps_basic", "eps_diluted"]

/-- Balance-sheet keys of `CANON`. -/
def balanceKeys : List String :=
  ["total_assets", "total_liabilities", "total_equity", "shares_outstanding"]

/-- Cash-flow keys of `CANON`. -/
def cashflowKeys : List String :=
  ["operating_cf", "investing_cf", "financing_cf", "free_cf"]

/-- Derived-ratio keys of `CANON`. -/
def derivedKeys : List String :=
  ["profit_margin", "gross_margin", "operating_margin", "free_cash_flow_margin",
   "return_on_equity", "asset_turnover", "debt_to_equity", "pe_ratio_basic",
   "pe_ratio_diluted"]

/-- The four section names, in the fixed iteration order of the source. -/
def sectionNames : List String :=
  ["income_statement", "balance_sheet", "cash_flow", "derived"]

/-- `CANON` as a function from a section name to its fixed key list. -/
def CANON (s : String) : List String :=
  if s = "income_statement" then incomeKeys
  else if s = "balance_sheet" then balanceKeys
  else if s = "cash_flow" then cashflowKeys
  else if s = "derived" then derivedKeys
  else []

/-- The canonical vocabulary: the union of the four sections' key sets. -/
def canonVocab : List String :=
  incomeKeys ++ balanceKeys ++ cashflowKeys ++ derivedKeys

end Siif

namespace Siif

/-- A raw report (a Python dict): the six top-level keys that
`canonicalize_report` and `merge_reports_with_provenance` read.  A field is
`Option.none` when the key is absent or its value is `None`/`{}` (the source
collapses these with `report.get(k) or {}`).  Sections of real raw reports
are mappings; extraneous top-level keys are never read by the source. -/
structure RawReport where
  metadata : Option (List (String × Scalar))
  units : Option (List (String × Scalar))
  income_statement : Option (List (String × Scalar))
  balance_sheet : Option (List (String × Scalar))
  cash_flow : Option (List (String × Scalar))
  derived : Option (List (String × Scalar))
deriving DecidableEq

/-- An arbitrary input to `canonicalize_report`: either not a mapping at all
(a scalar such as `None` or a string), or a mapping. -/
inductive RawInput where
  | notDict (v : Scalar)
  | dict (r : RawReport)
deriving DecidableEq

/-- The raw report with no keys, i.e. the Python dict `{}`. -/
def emptyRawReport : RawReport :=
  ⟨Option.none, Option.none, Option.none, Option.none, Option.none, Option.none⟩

/-- The section of a raw report selected by name (after `or {}`). -/
def rawSection (r : RawReport) (s : String) : List (String × Scalar) :=
  if s = "income_statement" then r.income_statement.getD []
  else if s = "balance_sheet" then r.balance_sheet.getD []
  else if s = "cash_flow" then r.cash_flow.getD []
  else if s = "derived" then r.derived.getD []
  else []

/-- The `norm` dict of `canonicalize_report`, looked up at canonical key `k`
with default `None`: the loop `for k, v in sec.items(): norm[_canon_key(k)] =
_to_num(v)` makes the last write to a key win, and `norm.get(k)` collapses
"absent" and "present as `None`" to `None`. -/
def norm_get (sec : List (String × Scalar)) (k : String) : Option PyFloat :=
  sec.foldl (fun acc kv => if canon_key kv.1 = k then to_num kv.2 else acc) Option.none

/-- One output section of `canonicalize_report`:
`{k: norm.get(k) for k in CANON[section]}`. -/
def canon_section (keys : List String) (sec : List (String × Scalar)) :
    List (String × Option PyFloat) :=
  keys.map (fun k => (k, norm_get sec k))

/-- A canonicalized report: `metadata` and `units` passed through, the four
sections holding exactly their canonical keys. -/
structure CanonReport where
  metadata : List (String × Scalar)
  units : List (String × Scalar)
  income_statement : List (String × Option PyFloat)
  balance_sheet : List (String × Option PyFloat)
  cash_flow : List (String × Option PyFloat)
  derived : List (String × Option PyFloat)
deriving DecidableEq

/-- The result of `canonicalize_report`: the empty dict `{}` (returned for a
non-mapping input) or a canonicalized report. -/
inductive CanonOut where
  | emptyDict
  | report (r : CanonReport)
deriving DecidableEq

/-- `canonicalize_report` from `src/new_app.py`: a non-dict input returns `{}`;
a dict input yields the fixed shape, with `metadata`/`units` passed through
(defaulted to `{}`) and each section rebuilt over its fixed canonical keys. -/
def canonicalize_report (input : RawInput) : CanonOut :=
  match input with
  | RawInput.notDict _ => CanonOut.emptyDict
  | RawInput.dict r =>
    CanonOut.report
      { metadata := r.metadata.getD []
        units := r.units.getD []
        income_statement := canon_section incomeKeys (r.income_statement.getD [])
        balance_sheet := canon_section balanceKeys (r.balance_sheet.getD [])
        cash_flow := canon_section cashflowKeys (r.cash_flow.getD [])
        derived := canon_section derivedKeys (r.derived.getD []) }

/-- Re-embed a canonical value (float or `None`) as a raw scalar, for feeding
a canonicalized report back into the canonicalizer. -/
def scalar_of_v (v : Option PyFloat) : Scalar :=
  match v with
  | Option.none => Scalar.null
  | some f => Scalar.float f

/-- View the output of `canonicalize_report` (a Python dict) as a raw input
again, as when `canonicalize` is applied twice. -/
def canon_as_raw (c : CanonOut) : RawInput :=
  match c with
  | CanonOut.emptyDict => RawInput.dict emptyRawReport
  | CanonOut.report cr =>
    RawInput.dict
      ⟨some cr.metadata, some cr.units,
       some (cr.income_statement.map (fun kv => (kv.1, scalar_of_v kv.2))),
       some (cr.balance_sheet.map (fun kv => (kv.1, scalar_of_v kv.2))),
       some (cr.cash_flow.map (fun kv => (kv.1, scalar_of_v kv.2))),
       some (cr.derived.map (fun kv => (kv.1, scalar_of_v kv.2)))⟩

/-- `d.get(k)` on a dict of scalars, default `None`. -/
def dget (d : List (String × Scalar)) (k : String) : Scalar :=
  match d.find? (fun kv => kv.1 = k) with
  | some kv => kv.2
  | Option.none => Scalar.null

/-- `d.get(k, dflt)` on a dict of scalars. -/
def dgetD (d : List (String × Scalar)) (k : String) (dflt : Scalar) : Scalar :=
  match d.find? (fun kv => kv.1 = k) with
  | some kv => kv.2
  | Option.none => dflt

/-- `d.get(k)` on a dict of optional floats; a value `None` and an absent key
both yield `None`, as in Python. -/
def fget (d : List (String × Option PyFloat)) (k : String) : Option PyFloat :=
  match d.find? (fun kv => kv.1 = k) with
  | some kv => kv.2
  | Option.none => Option.none

/-- Python `a or b` on scalars. -/
def py_or (a b : Scalar) : Scalar :=
  if scalar_truthy a then a else b

/-- `{**pm, **ym}`: keys of `pm` (with `ym`'s values where both define a key)
followed by the keys only `ym` defines, in order. -/
def dict_union (pm ym : List (String × Scalar)) : List (String × Scalar) :=
  pm.map (fun kv =>
    match ym.find? (fun kv2 => kv2.1 = kv.1) with
    | some kv2 => (kv.1, kv2.2)
    | Option.none => kv)
  ++ ym.filter (fun kv2 => ¬ pm.any (fun kv => kv.1 = kv2.1))

/-- The reconciled `units` dict, with its two keys `currency` and `scale`. -/
structure MergedUnits where
  currency : Scalar
  scale : Scalar
deriving DecidableEq

/-- Units merge of `merge_reports_with_provenance`:
`currency = uy.get("currency") or up.get("currency")` and
`scale = uy.get("scale", 1) if uy.get("scale") is not None else up.get("scale", 1)`. -/
def merge_units (uy up : List (String × Scalar)) : MergedUnits :=
  { currency := py_or (dget uy "currency") (dget up "currency")
    scale :=
      if dget uy "scale" ≠ Scalar.null then dgetD uy "scale" (Scalar.int 1)
      else dgetD up "scale" (Scalar.int 1) }

/-- One provenance row: section, field, both source values, the chosen value
and the chosen source (`"yahoo"`, `"pdf"` or `"missing"`; the live Yahoo
source is the spec's *primary*, the PDF source its *secondary*). -/
structure ProvRow where
  sec : String
  field : String
  yahoo : Option PyFloat
  pdf : Option PyFloat
  chosen : Option PyFloat
  src : String
deriving DecidableEq

/-- The per-field precedence of the reconciler's inner loop, producing the
provenance row for field `f` of section `s`. -/
def merge_row (fy fp : List (String × Option PyFloat)) (s f : String) : ProvRow :=
  let vy := fget fy f
  let vp := fget fp f
  match vy with
  | some v => ⟨s, f, vy, vp, some v, "yahoo"⟩
  | Option.none =>
    match vp with
    | some v => ⟨s, f, vy, vp, some v, "pdf"⟩
    | Option.none => ⟨s, f, vy, vp, Option.none, "missing"⟩

/-- `metadata` of a canonicalize result, after `c.get("metadata") or {}`. -/
def co_meta (c : CanonOut) : List (String × Scalar) :=
  match c with
  | CanonOut.emptyDict => []
  | CanonOut.report r => r.metadata

/-- `units` of a canonicalize result, after `c.get("units") or {}`. -/
def co_units (c : CanonOut) : List (String × Scalar) :=
  match c with
  | CanonOut.emptyDict => []
  | CanonOut.report r => r.units

/-- Section `s` of a canonicalize result, after `c.get(s) or {}`. -/
def co_section (c : CanonOut) (s : String) : List (String × Option PyFloat) :=
  match c with
  | CanonOut.emptyDict => []
  | CanonOut.report r =>
    if s = "income_statement" then r.income_statement
    else if s = "balance_sheet" then r.balance_sheet
    else if s = "cash_flow" then r.cash_flow
    else if s = "derived" then r.derived
    else []

/-- `yrep or {}` / `prep or {}` at the top of the reconciler: a falsy argument
(such as `None`) is replaced by the empty dict. -/
def or_empty (x : RawInput) : RawInput :=
  match x with
  | RawInput.notDict v => if scalar_truthy v then RawInput.notDict v else RawInput.dict emptyRawReport
  | RawInput.dict r => RawInput.dict r

/-- The provenance rows of one section, in field order. -/
def section_rows (yc pc : CanonOut) (s : String) : List ProvRow :=
  (CANON s).map (fun f => merge_row (co_section yc s) (co_section pc s) s f)

/-- The chosen values of one section of the final report, in field order. -/
def merge_section_vals (yc pc : CanonOut) (s : String) : List (String × Option PyFloat) :=
  (CANON s).map (fun f => (f, (merge_row (co_section yc s) (co_section pc s) s f).chosen))

/-- The final reconciled report assembled by `merge_reports_with_provenance`. -/
structure FinalReport where
  metadata : List (String × Scalar)
  units : MergedUnits
  income_statement : List (String × Option PyFloat)
  balance_sheet : List (String × Option PyFloat)
  cash_flow : List (String × Option PyFloat)
  derived : List (String × Option PyFloat)
deriving DecidableEq

/-- Section `s` of the final report, by name. -/
def fr_section (r : FinalReport) (s : String) : List (String × Option PyFloat) :=
  if s = "income_statement" then r.income_statement
  else if s = "balance_sheet" then r.balance_sheet
  else if s = "cash_flow" then r.cash_flow
  else if s = "derived" then r.derived
  else []

/-- `merge_reports_with_provenance` from `src/new_app.py`: canonicalize both
inputs (after `or {}`), shallow-merge metadata with Yahoo's keys overriding,
merge units, then walk the fixed schema in order, building the final sections
and one provenance row per field.  The section loop of the source is unrolled
over the four fixed section names. -/
def merge_reports_with_provenance (y p : RawInput) : FinalReport × List ProvRow :=
  let yc := canonicalize_report (or_empty y)
  let pc := canonicalize_report (or_empty p)
  ({ metadata := dict_union (co_meta pc) (co_meta yc)
     units := merge_units (co_units yc) (co_units pc)
     income_statement := merge_section_vals yc pc "income_statement"
     balance_sheet := merge_section_vals yc pc "balance_sheet"
     cash_flow := merge_section_vals yc pc "cash_flow"
     derived := merge_section_vals yc pc "derived" },
   section_rows yc pc "income_statement" ++ section_rows yc pc "balance_sheet" ++
     section_rows yc pc "cash_flow" ++ section_rows yc pc "derived")

/-- `safe_div` from `src/model.py`: `None` if either operand is `None` or the
divisor is zero, else the quotient. -/
def safe_div (a b : Option ℚ) : Option ℚ :=
  match a, b with
  | Option.none, _ => Option.none
  | some _, Option.none => Option.none
  | some x, some y => if y = 0 then Option.none else some (x / y)

/-- `d.get(k)` on a dict of optional numbers (absent key and `None` value
both give `None`). -/
def getN (d : List (String × Option ℚ)) (k : String) : Option ℚ :=
  match d.find? (fun kv => kv.1 = k) with
  | some kv => kv.2
  | Option.none => Option.none

/-- `d[k] = v` on a Python dict: replace the value in place if the key
exists, else append the new key at the end. -/
def dset (d : List (String × Option ℚ)) (k : String) (v : Option ℚ) :
    List (String × Option ℚ) :=
  match d with
  | [] => [(k, v)]
  | kv :: tl => if kv.1 = k then (k, v) :: tl else kv :: dset tl k v

/-- A report as `add_derived` sees it (the merged dict of `src/model.py`,
whose numeric values are schema-validated JSON numbers, modelled as exact
rationals). -/
structure MReport where
  income_statement : List (String × Option ℚ)
  balance_sheet : List (String × Option ℚ)
  cash_flow : List (String × Option ℚ)
  derived : List (String × Option ℚ)
deriving DecidableEq

/-- The free-cash-flow backfill inside `add_derived`: when `free_cf` is null
and both `operating_cf` and `investing_cf` are non-null, set
`cf["free_cf"] = cf["operating_cf"] + cf["investing_cf"]` (a signed sum);
otherwise leave the dict untouched. -/
def backfill_free_cf (cf : List (String × Option ℚ)) : List (String × Option ℚ) :=
  match getN cf "free_cf", getN cf "operating_cf", getN cf "investing_cf" with
  | Option.none, some a, some b => dset cf "free_cf" (some (a + b))
  | _, _, _ => cf

/-- `add_derived` from `src/model.py`.  In the source the function mutates its
argument: `cf["free_cf"] = ...` updates `report["cash_flow"]` in place and
`report["derived"] = {...}` is reassigned on the argument, which is then
returned.  The embedding returns the post-call state of the report, which in
the source is both the return value *and* the state of the caller's argument
(they are the same object). -/
def add_derived (report : MReport) : MReport :=
  let inc := report.income_statement
  let bal := report.balance_sheet
  let cf := backfill_free_cf report.cash_flow
  { income_statement := inc
    balance_sheet := bal
    cash_flow := cf
    derived :=
      [("pe_ratio_basic", Option.none),
       ("pe_ratio_diluted", Option.none),
       ("profit_margin", safe_div (getN inc "net_income") (getN inc "revenue")),
       ("return_on_equity", safe_div (getN inc "net_income") (getN bal "total_equity")),
       ("gross_margin", safe_div (getN inc "gross_profit") (getN inc "revenue")),
       ("operating_margin", safe_div (getN inc "operating_income") (getN inc "revenue")),
       ("debt_to_equity", safe_div (getN bal "total_liabilities") (getN bal "total_equity")),
       ("asset_turnover", safe_div (getN inc "revenue") (getN bal "total_assets")),
       ("free_cash_flow_margin", safe_div (getN cf "free_cf") (getN inc "revenue"))] }

set_option maxRecDepth 4000

/-- Is a coerced value finite-or-null (not NaN and not infinite)? -/
def finOrNone (v : Option PyFloat) : Bool :=
  match v with
  | Option.none => true
  | some (PyFloat.finite _) => true
  | some _ => false

/-- Modelled from the spec:  the reconciler's precedence rule for the chosen
value — primary's canonical value if non-null, else secondary's, else null.
Stated independently of the code so the code can be proved to refine it. -/
def chosen_spec (vp vs : Option PyFloat) : Option PyFloat :=
  match vp with
  | some v => some v
  | Option.none => vs

/-- Modelled from the spec:  the reconciler's precedence rule for the chosen
source — primary (`"yahoo"`) if its value is non-null, else secondary
(`"pdf"`) if its value is non-null, else `"missing"`. -/
def source_spec (vp vs : Option PyFloat) : String :=
  match vp with
  | some _ => "yahoo"
  | Option.none =>
    match vs with
    | some _ => "pdf"
    | Option.none => "missing"

/-- The all-null canonical report of the fixed shape (what the spec says a
non-mapping input canonicalizes to). -/
def all_null_canon : CanonReport :=
  ⟨[], [],
   incomeKeys.map (fun k => (k, Option.none)),
   balanceKeys.map (fun k => (k, Option.none)),
   cashflowKeys.map (fun k => (k, Option.none)),
   derivedKeys.map (fun k => (k, Option.none))⟩

/-- The spec's end-to-end primary raw report:
`{"income_statement": {"TotalRevenue": "1,000"}, "balance_sheet": {},
"cash_flow": {}, "derived": {}}`. -/
def c2Primary : RawInput :=
  RawInput.dict
    ⟨Option.none, Option.none, some [("TotalRevenue", Scalar.str "1,000")],
     some [], some [], some []⟩

/-- The spec's end-to-end secondary raw report:
`{"income_statement": {"net_income": "100"}}`. -/
def c2Secondary : RawInput :=
  RawInput.dict
    ⟨Option.none, Option.none, some [("net_income", Scalar.str "100")],
     Option.none, Option.none, Option.none⟩

/-- A primary report holding only `units = {"scale": 1}`. -/
def unitsY : RawInput :=
  RawInput.dict
    ⟨Option.none, some [("scale", Scalar.int 1)], Option.none, Option.none,
     Option.none, Option.none⟩

/-- A secondary report holding only `units = {"scale": 1000000}`. -/
def unitsP : RawInput :=
  RawInput.dict
    ⟨Option.none, some [("scale", Scalar.int 1000000)], Option.none, Option.none,
     Option.none, Option.none⟩

/-- A primary report with truthy currency and a non-null scale. -/
def unitsY2 : RawInput :=
  RawInput.dict
    ⟨Option.none, some [("currency", Scalar.str "AUD"), ("scale", Scalar.int 1000000)],
     Option.none, Option.none, Option.none, Option.none⟩

/-- A secondary report with its own currency and scale. -/
def unitsP2 : RawInput :=
  RawInput.dict
    ⟨Option.none, some [("currency", Scalar.str "USD"), ("scale", Scalar.int 1000)],
     Option.none, Option.none, Option.none, Option.none⟩

/-- A report whose cash-flow section triggers the free-cash-flow backfill
(`operating_cf = 5`, `investing_cf = -2`, `free_cf` null). -/
def mrepEx : MReport :=
  ⟨[], [],
   [("free_cf", Option.none), ("operating_cf", some (5 : ℚ)),
    ("investing_cf", some ((-2) : ℚ))],
   []⟩

/-- A raw report whose single value `"inf%"` coerces to infinity through the
unchecked percent branch of `_to_num`. -/
def rInf : RawReport :=
  ⟨Option.none, Option.none, some [("revenue", Scalar.str "inf%")], Option.none,
   Option.none, Option.none⟩

/-- A raw report in canonical key form with a finite value. -/
def rFin : RawReport :=
  ⟨Option.none, Option.none, some [("revenue", Scalar.int 5)], Option.none,
   Option.none, Option.none⟩

/-- A raw report `{"balance_sheet": {"Total Liab": 5}}` exercising the
`total_liab → total_liilities` synonym entry. -/
def rLiab : RawReport :=
  ⟨Option.none, Option.none, Option.none, some [("Total Liab", Scalar.int 5)],
   Option.none, Option.none⟩

/-- The section of a provenance row is the section it was built for. -/
theorem merge_row_sec (fy fp : List (String × Option PyFloat)) (s f : String) :
    (merge_row fy fp s f).sec = s := by
  unfold merge_row
  cases fget fy f <;> [skip; rfl]
  cases fget fp f <;> rfl

/-- The field of a provenance row is the field it was built for. -/
theorem merge_row_field (fy fp : List (String × Option PyFloat)) (s f : String) :
    (merge_row fy fp s f).field = f := by
  unfold merge_row
  cases fget fy f <;> [skip; rfl]
  cases fget fp f <;> rfl

/-- Filtering a mapped list where the predicate fails everywhere gives `[]`. -/
theorem filter_map_nil {α β : Type} (g : α → β) (p : β → Bool) (l : List α)
    (h : ∀ a ∈ l, p (g a) = false) : (l.map g).filter p = [] := by
  induction l with
  | nil => rfl
  | cons a l ih =>
    simp only [List.map_cons, List.filter_cons, h a (by simp)]
    exact ih (fun a ha => h a (by simp [ha]))

/-- Filtering a duplicate-free key list for one of its members gives exactly
that member. -/
theorem filter_keys_mem (ks : List String) (f : String) (hnd : ks.Nodup)
    (hf : f ∈ ks) : ks.filter (fun k => k == f) = [f] := by
  induction ks with
  | nil => cases hf
  | cons k ks ih =>
    rcases List.mem_cons.mp hf with rfl | hf2
    · have hnot : ∀ k2 ∈ ks, ¬ ((k2 == f) = true) := by
        intro k2 hk2 h
        exact (List.nodup_cons.mp hnd).1 ((eq_of_beq h) ▸ hk2)
      simp only [List.filter_cons, beq_self_eq_true, if_pos]
      simpa using List.filter_eq_nil_iff.mpr hnot
    · have hne : (k == f) = false := by
        have : k ≠ f := by
          intro h
          exact (List.nodup_cons.mp hnd).1 (h ▸ hf2)
        simpa using this
      simp only [List.filter_cons, hne, cond_false]
      exact ih (List.nodup_cons.mp hnd).2 hf2

/-- Looking up a member key in a list built over a key list gives the
generating function's value at that key. -/
theorem fget_map_keys (ks : List String) (g : String → Option PyFloat) (f : String)
    (hf : f ∈ ks) : fget (ks.map (fun k => (k, g k))) f = g f := by
  induction ks with
  | nil => cases hf
  | cons k ks ih =>
    by_cases hk : k = f
    · subst hk
      simp [fget]
    · rcases List.mem_cons.mp hf with rfl | hf2
      · exact absurd rfl hk
      · simp only [List.map_cons, fget, List.find?]
        have : (decide (k = f)) = false := by simpa using hk
        simpa [fget, this] using ih hf2

/-- A provenance row agrees with the spec's precedence rule. -/
theorem merge_row_eq_spec (fy fp : List (String × Option PyFloat)) (s f : String) :
    merge_row fy fp s f =
      ⟨s, f, fget fy f, fget fp f, chosen_spec (fget fy f) (fget fp f),
       source_spec (fget fy f) (fget fp f)⟩ := by
  unfold merge_row chosen_spec source_spec
  cases fget fy f <;> [skip; rfl]
  cases fget fp f <;> rfl

/-- Setting a key then reading it back gives the written value. -/
theorem getN_dset_self (d : List (String × Option ℚ)) (k : String) (v : Option ℚ) :
    getN (dset d k v) k = v := by
  induction d with
  | nil => simp [dset, getN, List.find?]
  | cons kv tl ih =>
    by_cases h : kv.1 = k
    · simp [dset, h, getN, List.find?]
    · unfold dset
      rw [if_neg h]
      unfold getN
      rw [List.find?_cons_of_neg _ (by simpa using h)]
      exact ih

/-- The free-cash-flow backfill is idempotent. -/
theorem backfill_free_cf_idem (cf : List (String × Option ℚ)) :
    backfill_free_cf (backfill_free_cf cf) = backfill_free_cf cf := by
  unfold backfill_free_cf
  rcases hfc : getN cf "free_cf" with _ | v
  · rcases hoc : getN cf "operating_cf" with _ | a
    · simp [hfc, hoc]
    · rcases hic : getN cf "investing_cf" with _ | b
      · simp [hfc, hoc, hic]
      · simp [hfc, hoc, hic, getN_dset_self]
  · simp [hfc]

/-- Membership in the fixed section-name list, case-split. -/
theorem sectionNames_cases (s : String) (hs : s ∈ sectionNames) :
    s = "income_statement" ∨ s = "balance_sheet" ∨ s = "cash_flow" ∨ s = "derived" := by
  simpa [sectionNames] using hs

/-- Each fixed canonical key list is duplicate-free. -/
theorem CANON_nodup (s : String) : (CANON s).Nodup := by
  unfold CANON
  split_ifs <;> decide

/-- The keys of a canonicalized section are exactly the fixed key list. -/
theorem canon_section_keys (keys : List String) (sec : List (String × Scalar)) :
    (canon_section keys sec).map (fun kv => kv.1) = keys := by
  simp only [canon_section, List.map_map]
  show List.map (fun k => k) keys = keys
  simp

/-- The `norm` fold leaves its accumulator alone when no entry canonicalizes
to the key being read. -/
theorem norm_fold_no_match (sec : List (String × Scalar)) (k : String)
    (init : Option PyFloat) (h : ∀ kv ∈ sec, canon_key kv.1 ≠ k) :
    sec.foldl (fun acc kv => if canon_key kv.1 = k then to_num kv.2 else acc) init
      = init := by
  induction sec generalizing init with
  | nil => rfl
  | cons kv tl ih =>
    rw [List.foldl_cons, if_neg (h kv (by simp))]
    exact ih _ (fun kv2 h2 => h kv2 (by simp [h2]))

/-- Reading the `norm` dict of a section whose keys are distinct fixed points
of the key canonicalizer gives the generating value. -/
theorem norm_get_map_keys (ks : List String) (g : String → Scalar) (k : String)
    (hnd : ks.Nodup) (hid : ∀ k2 ∈ ks, canon_key k2 = k2) (hk : k ∈ ks) :
    norm_get (ks.map (fun k2 => (k2, g k2))) k = to_num (g k) := by
  induction ks with
  | nil => cases hk
  | cons a ks ih =>
    unfold norm_get
    rw [List.map_cons, List.foldl_cons]
    by_cases hak : a = k
    · subst hak
      rw [if_pos (hid a (by simp))]
      apply norm_fold_no_match
      intro kv hkv
      rcases List.mem_map.mp hkv with ⟨k2, hk2, rfl⟩
      rw [hid k2 (by simp [hk2])]
      intro hcontra
      exact (List.nodup_cons.mp hnd).1 (hcontra ▸ hk2)
    · have hid2 : canon_key a = a := hid a (by simp)
      rw [if_neg (by rw [hid2]; exact hak)]
      rcases List.mem_cons.mp hk with rfl | hk2
      · exact absurd rfl hak
      · exact ih (List.nodup_cons.mp hnd).2 (fun k2 h2 => hid k2 (by simp [h2])) hk2

/-- Re-coercing a finite-or-null canonical value gives it back. -/
theorem to_num_scalar_of_v (v : Option PyFloat) (h : finOrNone v = true) :
    to_num (scalar_of_v v) = v := by
  cases v with
  | none => rfl
  | some f =>
    cases f with
    | finite q => rfl
    | nan => simp [finOrNone] at h
    | inf => simp [finOrNone] at h
    | ninf => simp [finOrNone] at h

/-- The `norm` dict only ever holds coercion results, so it is finite-or-null
whenever every value of the section coerces to a finite number or null. -/
theorem finOrNone_norm_get (sec : List (String × Scalar)) (k : String)
    (h : ∀ kv ∈ sec, finOrNone (to_num kv.2) = true) :
    finOrNone (norm_get sec k) = true := by
  unfold norm_get
  have aux : ∀ (init : Option PyFloat), finOrNone init = true →
      finOrNone (sec.foldl
        (fun acc kv => if canon_key kv.1 = k then to_num kv.2 else acc) init) = true := by
    induction sec with
    | nil => intro init hi; exact hi
    | cons kv tl ih =>
      intro init hi
      rw [List.foldl_cons]
      by_cases hck : canon_key kv.1 = k
      · rw [if_pos hck]
        exact ih (fun kv2 h2 => h kv2 (by simp [h2])) _ (h kv (by simp))
      · rw [if_neg hck]
        exact ih (fun kv2 h2 => h kv2 (by simp [h2])) _ hi
  exact aux Option.none rfl

/-- Canonicalizing a canonicalized section again changes nothing, provided the
stored values are finite-or-null. -/
theorem canon_section_idem (keys : List String) (sec : List (String × Scalar))
    (hnd : keys.Nodup) (hid : ∀ k ∈ keys, canon_key k = k)
    (hfin : ∀ k ∈ keys, finOrNone (norm_get sec k) = true) :
    canon_section keys
        ((canon_section keys sec).map (fun kv => (kv.1, scalar_of_v kv.2)))
      = canon_section keys sec := by
  unfold canon_section
  rw [List.map_map]
  apply List.map_congr_left
  intro k hk
  have hg : (fun kv => (kv.1, scalar_of_v kv.2)) ∘ (fun k => (k, norm_get sec k))
      = fun k2 => (k2, scalar_of_v (norm_get sec k2)) := rfl
  rw [hg, norm_get_map_keys keys _ k hnd hid hk, to_num_scalar_of_v _ (hfin k hk)]

/-- Every canonical key of every section is a fixed point of `_canon_key`, and
each key list is duplicate-free.  (Only `total_assets` and `total_liabilities`
even occur in the synonym table, both mapping to themselves.) -/
theorem canon_keys_fixed :
    (∀ k ∈ incomeKeys, canon_key k = k) ∧ (∀ k ∈ balanceKeys, canon_key k = k) ∧
    (∀ k ∈ cashflowKeys, canon_key k = k) ∧ (∀ k ∈ derivedKeys, canon_key k = k) := by
  refine ⟨?_, ?_, ?_, ?_⟩ <;> decide

/-- C10: boolean inputs are coerced as numbers, never dropped: `_to_num` and
`_safe_num` both send `True` to `1.0` and `False` to `0.0` (Python bools are
instances of `int`, so they take the numeric branch of each coercion). -/
theorem C10_bool_coercion :
    to_num (Scalar.bool true) = some (PyFloat.finite 1) ∧
    to_num (Scalar.bool false) = some (PyFloat.finite 0) ∧
    safe_num (Scalar.bool true) = some (PyFloat.finite 1) ∧
    safe_num (Scalar.bool false) = some (PyFloat.finite 0) :=
  ⟨rfl, rfl, rfl, rfl⟩

/-- C5: the value coercion satisfies the spec's examples —
`coerce("1,234.50") = 1234.50`, `coerce("12.5%") = 0.125`,
`coerce("N/A") = null`, `coerce("—") = null`, `coerce(NaN) = null` — and every
string on which the parse the code attempts fails coerces to null: when the
stripped string ends in `%` the attempted parse is the percent branch (parse
of the string minus its trailing `%`), otherwise it is the comma-stripped
parse.  The embedding is a total function, so it cannot raise. -/
theorem C5_value_coercion :
    to_num (Scalar.str "1,234.50") = some (PyFloat.finite (1234.5 : ℚ)) ∧
    to_num (Scalar.str "12.5%") = some (PyFloat.finite (0.125 : ℚ)) ∧
    to_num (Scalar.str "N/A") = Option.none ∧
    to_num (Scalar.str "—") = Option.none ∧
    to_num (Scalar.float PyFloat.nan) = Option.none ∧
    (∀ s : String,
      ((pyStrip s.data).getLast? = some '%' →
        parsePyFloat (strOf (pyStrip ((pyStrip s.data).dropLast))) = Option.none →
        to_num (Scalar.str s) = Option.none) ∧
      (¬ ((pyStrip s.data).getLast? = some '%') →
        parsePyFloat (strOf ((pyStrip s.data).filter (fun c => c ≠ ','))) = Option.none →
        to_num (Scalar.str s) = Option.none)) := by
  have hbody : ∀ s : String, to_num (Scalar.str s)
      = (if pyStrip s.data = [] ∨ pyLower (pyStrip s.data) = "nan".data ∨
          pyLower (pyStrip s.data) = "none".data ∨ pyLower (pyStrip s.data) = "null".data ∨
          pyLower (pyStrip s.data) = "—".data ∨ pyLower (pyStrip s.data) = "-".data then
          Option.none
        else if (pyStrip s.data).getLast? = some '%' then
          match parsePyFloat (strOf (pyStrip ((pyStrip s.data).dropLast))) with
          | Option.none => Option.none
          | some f => some (pfDiv100 f)
        else
          match parsePyFloat (strOf ((pyStrip s.data).filter (fun c => c ≠ ','))) with
          | Option.none => Option.none
          | some (PyFloat.finite q) => some (PyFloat.finite q)
          | some _ => Option.none) := fun s => rfl
  refine ⟨?_, ?_, by decide, by decide, rfl, ?_⟩
  · have h : (((123450 : ℕ) : ℚ) / 10 ^ 2) = 1234.5 := by norm_num
    calc to_num (Scalar.str "1,234.50")
        = some (PyFloat.finite (((123450 : ℕ) : ℚ) / 10 ^ 2)) := rfl
      _ = some (PyFloat.finite (1234.5 : ℚ)) := by rw [h]
  · have h : ((((125 : ℕ) : ℚ) / 10 ^ 1) / 100) = 0.125 := by norm_num
    calc to_num (Scalar.str "12.5%")
        = some (PyFloat.finite ((((125 : ℕ) : ℚ) / 10 ^ 1) / 100)) := rfl
      _ = some (PyFloat.finite (0.125 : ℚ)) := by rw [h]
  · intro s
    constructor <;> intro hb hp <;> rw [hbody s] <;>
      by_cases hsent : pyStrip s.data = [] ∨ pyLower (pyStrip s.data) = "nan".data ∨
        pyLower (pyStrip s.data) = "none".data ∨ pyLower (pyStrip s.data) = "null".data ∨
        pyLower (pyStrip s.data) = "—".data ∨ pyLower (pyStrip s.data) = "-".data
    · rw [if_pos hsent]
    · rw [if_neg hsent, if_pos hb, hp]
    · rw [if_pos hsent]
    · rw [if_neg hsent, if_neg hb, hp]

/-- C5 witness: the parse-failure clause applied at concrete strings taking
each branch — `"N/A"` (no percent, `float("N/A")` fails) and `"abc%"` (percent
branch, `float("abc")` fails). -/
theorem C5_value_coercion_witness :
    (¬ ((pyStrip "N/A".data).getLast? = some '%') ∧
     parsePyFloat (strOf ((pyStrip "N/A".data).filter (fun c => c ≠ ','))) = Option.none ∧
     to_num (Scalar.str "N/A") = Option.none) ∧
    ((pyStrip "abc%".data).getLast? = some '%' ∧
     parsePyFloat (strOf (pyStrip ((pyStrip "abc%".data).dropLast))) = Option.none ∧
     to_num (Scalar.str "abc%") = Option.none) :=
  ⟨⟨by decide, by decide,
    (C5_value_coercion.2.2.2.2.2 "N/A").2 (by decide) (by decide)⟩,
   ⟨by decide, by decide,
    (C5_value_coercion.2.2.2.2.2 "abc%").1 (by decide) (by decide)⟩⟩

/-- C9: the synonym table is *not* contained in the canonical vocabulary: the
entry `total_liab → total_liilities` maps outside every section's key set, the
key canonicalizer returns the misspelling unrepaired (the typo fix fires
before the lookup, not after), and consequently a raw `"Total Liab"` value is
silently dropped (`total_liabilities` stays null). -/
theorem C9_synonym_escapes_vocabulary :
    ("total_liab", "total_liilities") ∈ SYNONYMS ∧
    "total_liilities" ∉ canonVocab ∧
    canon_key "total_liab" = "total_liilities" ∧
    fget (co_section (canonicalize_report (RawInput.dict rLiab)) "balance_sheet")
      "total_liabilities" = Option.none :=
  ⟨by decide, by decide, by decide, by decide⟩

/-- C3 counterexample: on the non-mapping input `None` the canonicalizer
returns the empty dict `{}`, not the all-null canonical report of the fixed
shape that the claim demands. -/
theorem C3_counterexample :
    canonicalize_report (RawInput.notDict Scalar.null) = CanonOut.emptyDict ∧
    canonicalize_report (RawInput.notDict Scalar.null) ≠ CanonOut.report all_null_canon :=
  ⟨rfl, by decide⟩

/-- C3 (amended): for every non-mapping input the canonicalizer never raises
(it is total) but returns the *empty mapping* `{}`; for every mapping input
each of the four sections of the result carries exactly its fixed canonical
key list. -/
theorem C3_canonicalizer_shape :
    (∀ v : Scalar, canonicalize_report (RawInput.notDict v) = CanonOut.emptyDict) ∧
    (∀ (r : RawReport), ∀ s ∈ sectionNames,
      (co_section (canonicalize_report (RawInput.dict r)) s).map (fun kv => kv.1)
        = CANON s) := by
  constructor
  · intro v
    rfl
  · intro r s hs
    rcases sectionNames_cases s hs with rfl | rfl | rfl | rfl <;>
      simp only [canonicalize_report, co_section, CANON, if_true, if_false,
        reduceIte] <;>
      exact canon_section_keys _ _

/-- C3 witness: the amended claim at the inputs `None` and `{}`. -/
theorem C3_canonicalizer_shape_witness :
    canonicalize_report (RawInput.notDict Scalar.null) = CanonOut.emptyDict ∧
    (co_section (canonicalize_report (RawInput.dict emptyRawReport))
        "income_statement").map (fun kv => kv.1) = CANON "income_statement" :=
  ⟨C3_canonicalizer_shape.1 Scalar.null,
   C3_canonicalizer_shape.2 emptyRawReport "income_statement" (by decide)⟩

/-- C6: in `add_derived`, a null `free_cf` with non-null `operating_cf` and
`investing_cf` is backfilled as the *signed* sum `operating_cf + investing_cf`
(no sign flip, no absolute value); if `free_cf` is already non-null or either
operand is null, the cash-flow dict is left unchanged. -/
theorem C6_free_cf_backfill (r : MReport) :
    (∀ a b : ℚ,
      getN r.cash_flow "free_cf" = Option.none →
      getN r.cash_flow "operating_cf" = some a →
      getN r.cash_flow "investing_cf" = some b →
      (add_derived r).cash_flow = dset r.cash_flow "free_cf" (some (a + b)) ∧
      getN (add_derived r).cash_flow "free_cf" = some (a + b)) ∧
    ((getN r.cash_flow "free_cf" ≠ Option.none ∨
      getN r.cash_flow "operating_cf" = Option.none ∨
      getN r.cash_flow "investing_cf" = Option.none) →
      (add_derived r).cash_flow = r.cash_flow) := by
  have hcf : (add_derived r).cash_flow = backfill_free_cf r.cash_flow := rfl
  constructor
  · intro a b h1 h2 h3
    rw [hcf]
    unfold backfill_free_cf
    rw [h1, h2, h3]
    exact ⟨rfl, getN_dset_self _ _ _⟩
  · intro h
    rw [hcf]
    unfold backfill_free_cf
    rcases hfc : getN r.cash_flow "free_cf" with _ | v
    · rcases hoc : getN r.cash_flow "operating_cf" with _ | a
      · rfl
      · rcases hic : getN r.cash_flow "investing_cf" with _ | b
        · rfl
        · rcases h with h | h | h
          · exact absurd hfc h
          · exact absurd hoc (by rw [h]; intro hx; cases hx)
          · exact absurd hic (by rw [h]; intro hx; cases hx)
    · rfl

/-- C6 witness: the backfill applied to a signed example, `5 + (-2)`. -/
theorem C6_free_cf_backfill_witness :
    getN (add_derived mrepEx).cash_flow "free_cf" = some ((5 : ℚ) + (-2)) :=
  ((C6_free_cf_backfill mrepEx).1 5 (-2) rfl rfl rfl).2

/-- C7 counterexample: `add_derived` mutates its input.  In the source the
returned dict *is* the argument (`report["cash_flow"]`/`report["derived"]` are
assigned on it), so the argument's post-call state is the function's result;
on a report with a null `free_cf` and non-null operands the input's cash-flow
mapping has changed after the call. -/
theorem C7_counterexample :
    (add_derived mrepEx).cash_flow ≠ mrepEx.cash_flow := by decide

/-- C7 (amended): `add_derived` returns its argument mutated in place — the
`derived` section is reassigned and `cash_flow.free_cf` may be backfilled —
so its inputs are *not* left unchanged; however `income_statement` and
`balance_sheet` are never modified, and the calculator is idempotent:
applying it twice gives the same report as applying it once. -/
theorem C7_add_derived_effects (r : MReport) :
    (add_derived r).income_statement = r.income_statement ∧
    (add_derived r).balance_sheet = r.balance_sheet ∧
    add_derived (add_derived r) = add_derived r := by
  refine ⟨rfl, rfl, ?_⟩
  show add_derived (add_derived r) = add_derived r
  unfold add_derived
  simp only [backfill_free_cf_idem]

/-- C4 counterexample: with primary units `{"scale": 1}` (non-null, equal to
the unset default) and secondary units `{"scale": 1000000}`, the reconciled
scale is `1`, not the secondary's `1000000` demanded by the claim. -/
theorem C4_counterexample :
    (merge_reports_with_provenance unitsY unitsP).1.units.scale = Scalar.int 1 ∧
    (merge_reports_with_provenance unitsY unitsP).1.units.scale ≠ Scalar.int 1000000 :=
  ⟨by decide, by decide⟩

/-- C4 (amended): the reconciled currency is the primary's whenever that value
is *truthy* (non-null and non-empty), else the secondary's; the reconciled
scale is the primary's scale whenever its units map `scale` to a non-null
value (*including* the unset default 1), otherwise the secondary's scale,
defaulting to `1` when the secondary lacks the key. -/
theorem C4_units_merge (y p : RawInput) :
    (scalar_truthy (dget (co_units (canonicalize_report (or_empty y))) "currency") = true →
      (merge_reports_with_provenance y p).1.units.currency
        = dget (co_units (canonicalize_report (or_empty y))) "currency") ∧
    (scalar_truthy (dget (co_units (canonicalize_report (or_empty y))) "currency") = false →
      (merge_reports_with_provenance y p).1.units.currency
        = dget (co_units (canonicalize_report (or_empty p))) "currency") ∧
    (dget (co_units (canonicalize_report (or_empty y))) "scale" ≠ Scalar.null →
      (merge_reports_with_provenance y p).1.units.scale
        = dget (co_units (canonicalize_report (or_empty y))) "scale") ∧
    (dget (co_units (canonicalize_report (or_empty y))) "scale" = Scalar.null →
      (merge_reports_with_provenance y p).1.units.scale
        = dgetD (co_units (canonicalize_report (or_empty p))) "scale" (Scalar.int 1)) := by
  have hcur : (merge_reports_with_provenance y p).1.units.currency
      = py_or (dget (co_units (canonicalize_report (or_empty y))) "currency")
              (dget (co_units (canonicalize_report (or_empty p))) "currency") := rfl
  have hsc : (merge_reports_with_provenance y p).1.units.scale
      = (if dget (co_units (canonicalize_report (or_empty y))) "scale" ≠ Scalar.null
         then dgetD (co_units (canonicalize_report (or_empty y))) "scale" (Scalar.int 1)
         else dgetD (co_units (canonicalize_report (or_empty p))) "scale" (Scalar.int 1)) :=
    rfl
  refine ⟨?_, ?_, ?_, ?_⟩
  · intro h
    rw [hcur]
    unfold py_or
    rw [if_pos h]
  · intro h
    rw [hcur]
    unfold py_or
    rw [if_neg (by simp [h])]
  · intro h
    rw [hsc, if_pos h]
    unfold dget at h
    unfold dgetD dget
    rcases hf : List.find? (fun kv => kv.1 = "scale")
        (co_units (canonicalize_report (or_empty y))) with _ | kv
    · rw [hf] at h
      exact absurd rfl h
    · rw [hf]
  · intro h
    rw [hsc, if_neg (not_not_intro h)]

/-- C4 witness: the amended units rule at concrete reports with a truthy
primary currency and a present primary scale. -/
theorem C4_units_merge_witness :
    (scalar_truthy (dget (co_units (canonicalize_report (or_empty unitsY2))) "currency")
        = true ∧
      (merge_reports_with_provenance unitsY2 unitsP2).1.units.currency
        = dget (co_units (canonicalize_report (or_empty unitsY2))) "currency") ∧
    (dget (co_units (canonicalize_report (or_empty unitsY2))) "scale" ≠ Scalar.null ∧
      (merge_reports_with_provenance unitsY2 unitsP2).1.units.scale
        = dget (co_units (canonicalize_report (or_empty unitsY2))) "scale") :=
  ⟨⟨by decide, (C4_units_merge unitsY2 unitsP2).1 (by decide)⟩,
   ⟨by decide, (C4_units_merge unitsY2 unitsP2).2.2.1 (by decide)⟩⟩

/-- C8 counterexample: canonicalization is not idempotent on every mapping in
canonical key form — the value `"inf%"` coerces to infinity through the
unchecked percent branch, and a second canonicalization pass turns the stored
infinity into null. -/
theorem C8_counterexample :
    canonicalize_report (canon_as_raw (canonicalize_report (RawInput.dict rInf)))
      ≠ canonicalize_report (RawInput.dict rInf) := by decide

/-- C8 (amended): canonicalization is idempotent on every mapping whose
section keys are canonical *and whose section values coerce to finite numbers
or null* (the only exceptions are percent-strings of infinite/NaN magnitude,
such as `"inf%"`, which the percent branch of the coercion lets through). -/
theorem C8_canonicalize_idempotent (r : RawReport)
    (hkeys : ∀ s ∈ sectionNames, ∀ kv ∈ rawSection r s, kv.1 ∈ CANON s)
    (hfin : ∀ s ∈ sectionNames, ∀ kv ∈ rawSection r s, finOrNone (to_num kv.2) = true) :
    canonicalize_report (canon_as_raw (canonicalize_report (RawInput.dict r)))
      = canonicalize_report (RawInput.dict r) := by
  have hfin2 : ∀ s ∈ sectionNames, ∀ k,
      finOrNone (norm_get (rawSection r s) k) = true := by
    intro s hs k
    exact finOrNone_norm_get _ _ (hfin s hs)
  have h1 := canon_section_idem incomeKeys (r.income_statement.getD [])
    (by decide) canon_keys_fixed.1
    (fun k _ => by simpa [rawSection] using hfin2 "income_statement" (by decide) k)
  have h2 := canon_section_idem balanceKeys (r.balance_sheet.getD [])
    (by decide) canon_keys_fixed.2.1
    (fun k _ => by simpa [rawSection] using hfin2 "balance_sheet" (by decide) k)
  have h3 := canon_section_idem cashflowKeys (r.cash_flow.getD [])
    (by decide) canon_keys_fixed.2.2.1
    (fun k _ => by simpa [rawSection] using hfin2 "cash_flow" (by decide) k)
  have h4 := canon_section_idem derivedKeys (r.derived.getD [])
    (by decide) canon_keys_fixed.2.2.2
    (fun k _ => by simpa [rawSection] using hfin2 "derived" (by decide) k)
  show CanonOut.report
      ⟨r.metadata.getD [], r.units.getD [],
       canon_section incomeKeys
         ((canon_section incomeKeys (r.income_statement.getD [])).map
           (fun kv => (kv.1, scalar_of_v kv.2))),
       canon_section balanceKeys
         ((canon_section balanceKeys (r.balance_sheet.getD [])).map
           (fun kv => (kv.1, scalar_of_v kv.2))),
       canon_section cashflowKeys
         ((canon_section cashflowKeys (r.cash_flow.getD [])).map
           (fun kv => (kv.1, scalar_of_v kv.2))),
       canon_section derivedKeys
         ((canon_section derivedKeys (r.derived.getD [])).map
           (fun kv => (kv.1, scalar_of_v kv.2)))⟩
    = CanonOut.report
      ⟨r.metadata.getD [], r.units.getD [],
       canon_section incomeKeys (r.income_statement.getD []),
       canon_section balanceKeys (r.balance_sheet.getD []),
       canon_section cashflowKeys (r.cash_flow.getD []),
       canon_section derivedKeys (r.derived.getD [])⟩
  rw [h1, h2, h3, h4]

/-- C8 witness: idempotence at a concrete report in canonical key form with a
finite value. -/
theorem C8_canonicalize_idempotent_witness :
    canonicalize_report (canon_as_raw (canonicalize_report (RawInput.dict rFin)))
      = canonicalize_report (RawInput.dict rFin) :=
  C8_canonicalize_idempotent rFin (by decide) (by decide)

/-- C2 counterexample: on the spec's end-to-end inputs the primary key
`"TotalRevenue"` canonicalizes to `"totalrevenue"`, which is not in the
synonym table (only `"total_revenue"` is), so it is dropped: the reconciled
`revenue` is null with provenance source `"missing"`, not `1000.0` from the
primary as the claim demands. -/
theorem C2_counterexample :
    fget (merge_reports_with_provenance c2Primary c2Secondary).1.income_statement
        "revenue" = Option.none ∧
    fget (merge_reports_with_provenance c2Primary c2Secondary).1.income_statement
        "revenue" ≠ some (PyFloat.finite (1000 : ℚ)) ∧
    ((merge_reports_with_provenance c2Primary c2Secondary).2.filter
        (fun row => row.sec == "income_statement" && row.field == "revenue"))
      = [⟨"income_statement", "revenue", Option.none, Option.none, Option.none,
          "missing"⟩] := by
  refine ⟨by decide, by decide, by decide⟩

/-- C2 (amended): on the spec's end-to-end inputs the reconciled income
statement is `{revenue: null, gross_profit: null, operating_income: null,
net_income: 100.0, eps_basic: null, eps_diluted: null}` — `revenue` has
provenance source `"missing"` (the `"TotalRevenue"` spelling is dropped by
the key canonicalizer) and `net_income` has source `"pdf"` (the secondary). -/
theorem C2_end_to_end_actual :
    (merge_reports_with_provenance c2Primary c2Secondary).1.income_statement =
      [("revenue", Option.none), ("gross_profit", Option.none),
       ("operating_income", Option.none),
       ("net_income", some (PyFloat.finite (100 : ℚ))),
       ("eps_basic", Option.none), ("eps_diluted", Option.none)] ∧
    ((merge_reports_with_provenance c2Primary c2Secondary).2.filter
        (fun row => row.sec == "income_statement" && row.field == "net_income"))
      = [⟨"income_statement", "net_income", Option.none,
          some (PyFloat.finite (100 : ℚ)), some (PyFloat.finite (100 : ℚ)), "pdf"⟩] := by
  exact ⟨rfl, rfl⟩

/-- The provenance rows filtered to one (section, field) pair of the fixed
schema are exactly the one row built for that pair. -/
theorem merge_rows_filter (y p : RawInput) (s f : String)
    (hs : s ∈ sectionNames) (hf : f ∈ CANON s) :
    ((merge_reports_with_provenance y p).2).filter
        (fun row => row.sec == s && row.field == f)
      = [merge_row (co_section (canonicalize_report (or_empty y)) s)
          (co_section (canonicalize_report (or_empty p)) s) s f] := by
  have hrows : (merge_reports_with_provenance y p).2
      = section_rows (canonicalize_report (or_empty y)) (canonicalize_report (or_empty p))
          "income_statement" ++
        section_rows (canonicalize_report (or_empty y)) (canonicalize_report (or_empty p))
          "balance_sheet" ++
        section_rows (canonicalize_report (or_empty y)) (canonicalize_report (or_empty p))
          "cash_flow" ++
        section_rows (canonicalize_report (or_empty y)) (canonicalize_report (or_empty p))
          "derived" := rfl
  have hnil : ∀ s2 : String, (s2 == s) = false →
      (section_rows (canonicalize_report (or_empty y)) (canonicalize_report (or_empty p))
          s2).filter (fun row => row.sec == s && row.field == f) = [] := by
    intro s2 hne
    apply filter_map_nil
    intro f2 _
    simp [merge_row_sec, hne]
  have hsec :
      (section_rows (canonicalize_report (or_empty y)) (canonicalize_report (or_empty p))
          s).filter (fun row => row.sec == s && row.field == f)
        = [merge_row (co_section (canonicalize_report (or_empty y)) s)
            (co_section (canonicalize_report (or_empty p)) s) s f] := by
    unfold section_rows
    rw [List.filter_map]
    have hcongr : (CANON s).filter
        ((fun row => row.sec == s && row.field == f) ∘
          (fun f2 => merge_row (co_section (canonicalize_report (or_empty y)) s)
            (co_section (canonicalize_report (or_empty p)) s) s f2))
        = (CANON s).filter (fun k => k == f) := by
      apply List.filter_congr
      intro f2 _
      simp [Function.comp, merge_row_sec, merge_row_field]
    rw [hcongr, filter_keys_mem (CANON s) f (CANON_nodup s) hf]
    rfl
  rcases sectionNames_cases s hs with rfl | rfl | rfl | rfl <;>
    rw [hrows, List.filter_append, List.filter_append, List.filter_append]
  · rw [hsec, hnil "balance_sheet" (by decide), hnil "cash_flow" (by decide),
      hnil "derived" (by decide)]
    simp
  · rw [hsec, hnil "income_statement" (by decide), hnil "cash_flow" (by decide),
      hnil "derived" (by decide)]
    simp
  · rw [hsec, hnil "income_statement" (by decide), hnil "balance_sheet" (by decide),
      hnil "derived" (by decide)]
    simp
  · rw [hsec, hnil "income_statement" (by decide), hnil "balance_sheet" (by decide),
      hnil "cash_flow" (by decide)]
    simp

/-- C1: for every pair of raw inputs and every (section, field) of the fixed
schema, the reconciler emits exactly one provenance row for that field,
carrying both canonical source values, and both the row and the final report
follow the spec's precedence: primary (`"yahoo"`) if its canonical value is
non-null, else secondary (`"pdf"`) if non-null, else null with source
`"missing"`. -/
theorem C1_reconciler_precedence (y p : RawInput) (s f : String)
    (hs : s ∈ sectionNames) (hf : f ∈ CANON s) :
    ((merge_reports_with_provenance y p).2).filter
        (fun row => row.sec == s && row.field == f)
      = [⟨s, f,
          fget (co_section (canonicalize_report (or_empty y)) s) f,
          fget (co_section (canonicalize_report (or_empty p)) s) f,
          chosen_spec (fget (co_section (canonicalize_report (or_empty y)) s) f)
            (fget (co_section (canonicalize_report (or_empty p)) s) f),
          source_spec (fget (co_section (canonicalize_report (or_empty y)) s) f)
            (fget (co_section (canonicalize_report (or_empty p)) s) f)⟩] ∧
    fget (fr_section (merge_reports_with_provenance y p).1 s) f
      = chosen_spec (fget (co_section (canonicalize_report (or_empty y)) s) f)
          (fget (co_section (canonicalize_report (or_empty p)) s) f) := by
  constructor
  · rw [merge_rows_filter y p s f hs hf, merge_row_eq_spec]
  · have hfr : fr_section (merge_reports_with_provenance y p).1 s
        = merge_section_vals (canonicalize_report (or_empty y))
            (canonicalize_report (or_empty p)) s := by
      rcases sectionNames_cases s hs with rfl | rfl | rfl | rfl <;> rfl
    rw [hfr]
    unfold merge_section_vals
    rw [fget_map_keys (CANON s) _ f hf, merge_row_eq_spec]

/-- C1 witness: the precedence at the end-to-end inputs on
`(income_statement, net_income)`, where only the secondary has a value. -/
theorem C1_reconciler_precedence_witness :
    ((merge_reports_with_provenance c2Primary c2Secondary).2).filter
        (fun row => row.sec == "income_statement" && row.field == "net_income")
      = [⟨"income_statement", "net_income",
          fget (co_section (canonicalize_report (or_empty c2Primary))
            "income_statement") "net_income",
          fget (co_section (canonicalize_report (or_empty c2Secondary))
            "income_statement") "net_income",
          chosen_spec
            (fget (co_section (canonicalize_report (or_empty c2Primary))
              "income_statement") "net_income")
            (fget (co_section (canonicalize_report (or_empty c2Secondary))
              "income_statement") "net_income"),
          source_spec
            (fget (co_section (canonicalize_report (or_empty c2Primary))
              "income_statement") "net_income")
            (fget (co_section (canonicalize_report (or_empty c2Secondary))
              "income_statement") "net_income")⟩] ∧
    fget (fr_section (merge_reports_with_provenance c2Primary c2Secondary).1
        "income_statement") "net_income"
      = chosen_spec
          (fget (co_section (canonicalize_report (or_empty c2Primary))
            "income_statement") "net_income")
          (fget (co_section (canonicalize_report (or_empty c2Secondary))
            "income_statement") "net_income") :=
  C1_reconciler_precedence c2Primary c2Secondary "income_statement" "net_income"
    (by decide) (by decide)

end Siif
